import Mathlib

/-!
Verification of the memory-processor Lambda (`src/functions/memory_processor/app.py`)
against its natural-language specification.

The handler's data is JSON: we embed JSON values, the three pure helpers
(`_parse_s3_payload_location`, `_extract_text_from_context_item`,
`_build_transcript`), the fact-to-record mapping loop of `handler`, and the
persistence step.  Fallible Python operations (KeyError, AttributeError,
TypeError) are embedded as `Except String`.  Machine-level details that the
claims do not touch (floating-point JSON numbers, the network clients) are out
of scope: JSON numbers are modelled as integers, the model invocation and the
batch write are abstract function parameters.
-/

namespace MemoryProcessor

/-- JSON values as delivered by `json.loads`.  Object fields keep insertion
order (Python dicts preserve it); numbers are restricted to integers, which
covers every value the claims touch. -/
inductive Json where
  | null : Json
  | bool : Bool → Json
  | num : Int → Json
  | str : String → Json
  | arr : List Json → Json
  | obj : List (String × Json) → Json

/-- Lookup `d[k]` / `d.get(k)` on an embedded JSON object: first binding of `k`. -/
def lookupField : List (String × Json) → String → Option Json
  | [], _ => none
  | (k, v) :: rest, key => if k = key then some v else lookupField rest key

/-- Membership `k in d` for a dict. -/
def hasKey (fs : List (String × Json)) (k : String) : Bool :=
  (lookupField fs k).isSome

/-- Left brace character, written via its code point. -/
def lbrace : Char := Char.ofNat 123

/-- Right brace character. -/
def rbrace : Char := Char.ofNat 125

/-- Single-quote character. -/
def squote : Char := Char.ofNat 39

/-- Double-quote character. -/
def dquote : Char := Char.ofNat 34

/-- Backslash character. -/
def bslash : Char := Char.ofNat 92

/-- Lower-case hex digit for a value < 16. -/
def hexDigit (n : Nat) : Char :=
  if n < 10 then Char.ofNat (48 + n) else Char.ofNat (87 + (n % 16))

/-- Four lower-case hex digits, as in Python's `\uXXXX` escapes. -/
def hex4 (n : Nat) : List Char :=
  [hexDigit (n / 4096 % 16), hexDigit (n / 256 % 16), hexDigit (n / 16 % 16), hexDigit (n % 16)]

/-- Escaping of one character by `json.dumps` (default `ensure_ascii=True`). -/
def jsonEscapeChar (c : Char) : List Char :=
  if c = dquote then [bslash, dquote]
  else if c = bslash then [bslash, bslash]
  else if c = Char.ofNat 10 then [bslash, 'n']
  else if c = Char.ofNat 9 then [bslash, 't']
  else if c = Char.ofNat 13 then [bslash, 'r']
  else if c = Char.ofNat 8 then [bslash, 'b']
  else if c = Char.ofNat 12 then [bslash, 'f']
  else if c.toNat < 32 then bslash :: 'u' :: hex4 c.toNat
  else if c.toNat < 128 then [c]
  else if c.toNat < 65536 then bslash :: 'u' :: hex4 c.toNat
  else
    -- surrogate pair for astral code points
    bslash :: 'u' :: hex4 (55296 + (c.toNat - 65536) / 1024)
      ++ bslash :: 'u' :: hex4 (56320 + (c.toNat - 65536) % 1024)

/-- Apply a per-character escaping function across a character list. -/
def escapeAll (f : Char → List Char) : List Char → List Char
  | [] => []
  | c :: cs => f c ++ escapeAll f cs

/-- Serialization `json.dumps` of a string literal. -/
def dumpsString (s : String) : String :=
  String.mk (dquote :: escapeAll jsonEscapeChar s.data ++ [dquote])

/-- Comma-space join, as Python's default `json.dumps` item separator. -/
def joinComma : List String → String
  | [] => ""
  | [s] => s
  | s :: rest => s ++ ", " ++ joinComma rest

mutual
/-- Serialization `json.dumps` with default separators `(", ", ": ")`. -/
def dumps : Json → String
  | .null => "null"
  | .bool true => "true"
  | .bool false => "false"
  | .num n => toString n
  | .str s => dumpsString s
  | .arr xs => "[" ++ joinComma (dumpsList xs) ++ "]"
  | .obj fs => String.mk [lbrace] ++ joinComma (dumpsFields fs) ++ String.mk [rbrace]

/-- Serialization `json.dumps` of the elements of an array. -/
def dumpsList : List Json → List String
  | [] => []
  | x :: xs => dumps x :: dumpsList xs

/-- Serialization `json.dumps` of the fields of an object. -/
def dumpsFields : List (String × Json) → List String
  | [] => []
  | (k, v) :: fs => (dumpsString k ++ ": " ++ dumps v) :: dumpsFields fs
end

/-- Infix (substring) test on character lists: does `hay` start with `n`? -/
def subAt : List Char → List Char → Bool
  | [], _ => true
  | _ :: _, [] => false
  | a :: as, b :: bs => a = b && subAt as bs

/-- Python's `needle in hay` for strings: substring containment. -/
def listHasSub : List Char → List Char → Bool
  | n, [] => subAt n []
  | n, c :: t => subAt n (c :: t) || listHasSub n t

/-- Python `repr` escaping of one character inside a string repr with the
given quote character. -/
def pyReprEscapeChar (q c : Char) : List Char :=
  if c = bslash then [bslash, bslash]
  else if c = q then [bslash, q]
  else if c = Char.ofNat 10 then [bslash, 'n']
  else if c = Char.ofNat 13 then [bslash, 'r']
  else if c = Char.ofNat 9 then [bslash, 't']
  else if c.toNat < 32 then bslash :: 'x' :: [hexDigit (c.toNat / 16), hexDigit (c.toNat % 16)]
  else [c]

/-- Python `repr` of a `str`: single quotes, except double quotes when the
string contains a single quote but no double quote. -/
def pyReprString (s : String) : String :=
  let q := if listHasSub [squote] s.data && !(listHasSub [dquote] s.data)
           then dquote else squote
  String.mk (q :: escapeAll (pyReprEscapeChar q) s.data ++ [q])

mutual
/-- Python `repr` of a JSON-shaped Python value. -/
def pyRepr : Json → String
  | .null => "None"
  | .bool true => "True"
  | .bool false => "False"
  | .num n => toString n
  | .str s => pyReprString s
  | .arr xs => "[" ++ joinComma (pyReprList xs) ++ "]"
  | .obj fs => String.mk [lbrace] ++ joinComma (pyReprFields fs) ++ String.mk [rbrace]

/-- Python `repr` of list elements. -/
def pyReprList : List Json → List String
  | [] => []
  | x :: xs => pyRepr x :: pyReprList xs

/-- Python `repr` of dict items (`'k': v`). -/
def pyReprFields : List (String × Json) → List String
  | [] => []
  | (k, v) :: fs => (pyReprString k ++ ": " ++ pyRepr v) :: pyReprFields fs
end

/-- Python `str()` as used by f-string interpolation: identity on strings,
`repr` on containers, `None`/`True`/`False`/digits on atoms. -/
def pyStr : Json → String
  | .str s => s
  | j => pyRepr j

/-! ## `_parse_s3_payload_location`

`urlparse` is standard-library code; we model the fragment of its behaviour
the handler exercises.  The model is exact for inputs of the form
`scheme://netloc/path` whose scheme contains no `:` or `/` and whose netloc
and path contain no `?`, `#` or `;` (no query, fragment or params) — the
hypotheses under which the claim's theorem is stated. -/

/-- Result of `urllib.parse.urlparse`, restricted to the three components the
handler reads. -/
structure UrlParts where
  scheme : String
  netloc : String
  path : String
deriving DecidableEq

/-- Split a character list at the first occurrence of `://`: returns the part
before and the part after. -/
def splitAtSchemeSep : List Char → Option (List Char × List Char)
  | [] => none
  | c :: cs =>
    if c = ':' ∧ cs.take 2 = ['/', '/'] then some ([], cs.drop 2)
    else
      match splitAtSchemeSep cs with
      | some (a, b) => some (c :: a, b)
      | none => none

/-- Model of `urlparse` on the handler's inputs: the scheme is lower-cased,
the netloc runs to the first `/`, the path is the remainder.  Inputs without
`://` are mapped to an empty scheme and netloc, which is all the handler's
validity check observes about them. -/
def urlparseModel (s : String) : UrlParts :=
  match splitAtSchemeSep s.data with
  | none => { scheme := "", netloc := "", path := s }
  | some (sch, rest) =>
    { scheme := String.mk (sch.map Char.toLower)
      netloc := String.mk (rest.takeWhile (fun c => c ≠ '/'))
      path := String.mk (rest.dropWhile (fun c => c ≠ '/')) }

/-- Embedding of `_parse_s3_payload_location`: validate `scheme == "s3"`, non-empty netloc
and path, then return `(netloc, path.lstrip("/"))`; otherwise raise
`ValueError`. -/
def parse_s3_payload_location (s : String) : Except String (String × String) :=
  let u := urlparseModel s
  if u.scheme ≠ "s3" ∨ u.netloc = "" ∨ u.path = "" then
    .error ("Unexpected s3PayloadLocation: " ++ s)
  else
    .ok (u.netloc, String.mk (u.path.data.dropWhile (fun c => c = '/')))

/-! ## `_extract_text_from_context_item` and `_build_transcript` -/

/-- Embedding of `_extract_text_from_context_item`:
`role = item.get("role", "UNKNOWN")`, `content = item.get("content", {})`,
`text = content.get("text")`, falling back to `json.dumps(content)` when the
content dict is truthy and `json.dumps(item)` otherwise, then the f-string
`f"{role}: {text}"`.  `content.get` on a non-dict raises `AttributeError`
(and a `dict.get` miss and a JSON `null` value are both Python `None`). -/
def extract_text_from_context_item (item : Json) : Except String String :=
  match item with
  | .obj fs =>
    let role := (lookupField fs "role").getD (.str "UNKNOWN")
    match (lookupField fs "content").getD (.obj []) with
    | .obj cfs =>
      let textOpt : Option Json :=
        match lookupField cfs "text" with
        | some .null => none
        | some v => some v
        | none => none
      let textStr : String :=
        match textOpt with
        | some v => pyStr v
        | none => if cfs.isEmpty then dumps (.obj fs) else dumps (.obj cfs)
      .ok (pyStr role ++ ": " ++ textStr)
    | _ => .error "AttributeError: object has no attribute get"
  | _ => .error "AttributeError: object has no attribute get"

/-- Python's `needle in item` as used by `_build_transcript` on a context
item: key test for dicts, substring test for strings, membership for lists
(a string needle equals only an equal string element), `TypeError`
otherwise. -/
def pyContains (needle : String) (item : Json) : Except String Bool :=
  match item with
  | .obj fs => .ok (hasKey fs needle)
  | .str s => .ok (listHasSub needle.data s.data)
  | .arr xs => .ok (xs.any fun x => match x with | .str e => e = needle | _ => false)
  | _ => .error "TypeError: argument is not iterable"

/-- One iteration of the `_build_transcript` loop body: the guard
`"role" in item and "content" in item` (short-circuiting), then the line from
`_extract_text_from_context_item`.  `none` means the item was skipped. -/
def processItem (item : Json) : Except String (Option String) :=
  match pyContains "role" item with
  | .error e => .error e
  | .ok false => .ok none
  | .ok true =>
    match pyContains "content" item with
    | .error e => .error e
    | .ok false => .ok none
    | .ok true =>
      match extract_text_from_context_item item with
      | .error e => .error e
      | .ok line => .ok (some line)

/-- The items iterated for one section: `payload.get(section, []) or []`.
Falsy values (`None`, `False`, `0`, `""`, `[]`, `{}`) yield no items; a
truthy string iterates its characters, a truthy dict iterates its keys, and
other truthy non-sequences raise `TypeError`. -/
def getSection (payload : List (String × Json)) (name : String) : Except String (List Json) :=
  match lookupField payload name with
  | none => .ok []
  | some (.arr xs) => .ok xs
  | some .null => .ok []
  | some (.bool false) => .ok []
  | some (.bool true) => .error "TypeError: bool object is not iterable"
  | some (.num n) => if n = 0 then .ok [] else .error "TypeError: int object is not iterable"
  | some (.str s) => .ok (s.data.map fun c => Json.str (String.mk [c]))
  | some (.obj fs) => .ok (fs.map fun p => Json.str p.1)

/-- The lines contributed by one section's items, in order. -/
def collectParts : List Json → Except String (List String)
  | [] => .ok []
  | i :: rest =>
    match processItem i with
    | .error e => .error e
    | .ok none => collectParts rest
    | .ok (some line) =>
      match collectParts rest with
      | .error e => .error e
      | .ok lines => .ok (line :: lines)

/-- Python `"\n".join(parts)` at the character level. -/
def joinWithNewline : List (List Char) → List Char
  | [] => []
  | [p] => p
  | p :: q :: rest => p ++ '\n' :: joinWithNewline (q :: rest)

/-- Python `"\n".join(parts)` on strings. -/
def joinLines (parts : List String) : String :=
  String.mk (joinWithNewline (parts.map String.data))

/-- Embedding of `_build_transcript` up to the final join: lines of `historicalContext`
then lines of `currentContext`. -/
def buildTranscriptParts (payload : List (String × Json)) : Except String (List String) :=
  match getSection payload "historicalContext" with
  | .error e => .error e
  | .ok hist =>
    match getSection payload "currentContext" with
    | .error e => .error e
    | .ok curr =>
      match collectParts hist with
      | .error e => .error e
      | .ok hp =>
        match collectParts curr with
        | .error e => .error e
        | .ok cp => .ok (hp ++ cp)

/-- Embedding of `_build_transcript`: the joined transcript string. -/
def build_transcript (payload : List (String × Json)) : Except String String :=
  match buildTranscriptParts payload with
  | .error e => .error e
  | .ok parts => .ok (joinLines parts)

/-! ## Record mapping and persistence (`handler`, steps 5–6) -/

/-- One persisted memory record, as assembled by the `handler` loop. -/
structure MemoryRecord where
  requestIdentifier : String
  namespaces : List String
  contentText : String
  timestamp : String
deriving DecidableEq

/-- The `handler` result value `{"ok": True, "stored": len(records)}`. -/
structure HandlerResult where
  ok : Bool
  stored : Nat
deriving DecidableEq

/-- The record built for one extracted fact:
`requestIdentifier = f"{session_id}-{f.get('key', 'unknown')}"`,
`namespaces = ["/"]`,
`content.text = f'{f["key"]}: {f["value"]}'` — note the direct indexing,
which raises `KeyError` when `key` or `value` is absent — and the shared
`timestamp`.  Python assembles the dict literal field by field, so the
`requestIdentifier` fallback is computed but the `KeyError` from
`f["key"]` still aborts the whole record. -/
def mapFact (sessionId : Json) (now : String) (f : Json) : Except String MemoryRecord :=
  match f with
  | .obj fs =>
    let rid := pyStr sessionId ++ "-" ++ pyStr ((lookupField fs "key").getD (.str "unknown"))
    match lookupField fs "key" with
    | none => .error "KeyError: key"
    | some kv =>
      match lookupField fs "value" with
      | none => .error "KeyError: value"
      | some vv =>
        .ok { requestIdentifier := rid
              namespaces := ["/"]
              contentText := pyStr kv ++ ": " ++ pyStr vv
              timestamp := now }
  | _ => .error "AttributeError: object has no attribute get"

/-- The `for f in extracted.get("facts", [])` loop: records in fact order,
aborting (and discarding the partial list) on the first failing fact. -/
def mapRecords (sessionId : Json) (now : String) : List Json → Except String (List MemoryRecord)
  | [] => .ok []
  | f :: fs =>
    match mapFact sessionId now f with
    | .error e => .error e
    | .ok r =>
      match mapRecords sessionId now fs with
      | .error e => .error e
      | .ok rs => .ok (r :: rs)

/-- The fact list iterated by the loop: `extracted.get("facts", [])` (no
`or []` here: a present non-list value is iterated or raises).  Iterating a
truthy string or dict yields strings, on which the loop's `f.get` raises
`AttributeError`; we surface that error here. -/
def getFacts (extracted : Json) : Except String (List Json) :=
  match extracted with
  | .obj fs =>
    match lookupField fs "facts" with
    | none => .ok []
    | some (.arr xs) => .ok xs
    | some (.str s) => if s = "" then .ok [] else .error "AttributeError: str object has no attribute get"
    | some (.obj gs) => if gs.isEmpty then .ok [] else .error "AttributeError: str object has no attribute get"
    | some _ => .error "TypeError: object is not iterable"
  | _ => .error "AttributeError: object has no attribute get"

/-- Persistence step (`handler` lines 109–123): if the record list is
non-empty, one `batch_create_memory_records` call with the whole list; on
failure the exception is re-raised.  The first component is the list of batch
calls made; the second is the handler's outcome. -/
def persistRecords (batchWrite : List MemoryRecord → Except String Unit)
    (records : List MemoryRecord) : List (List MemoryRecord) × Except String HandlerResult :=
  if records = [] then
    ([], .ok { ok := true, stored := records.length })
  else
    match batchWrite records with
    | .ok _ => ([records], .ok { ok := true, stored := records.length })
    | .error e => ([records], .error e)

/-- Steps 5–6 of the handler: map the extracted facts to records, then
persist. -/
def storeFacts (batchWrite : List MemoryRecord → Except String Unit)
    (sessionId : Json) (now : String) (facts : List Json) :
    List (List MemoryRecord) × Except String HandlerResult :=
  match mapRecords sessionId now facts with
  | .error e => ([], .error e)
  | .ok records => persistRecords batchWrite records

/-- Steps 5–6 of the handler, from the parsed model output. -/
def handlerStoreStage (batchWrite : List MemoryRecord → Except String Unit)
    (sessionId : Json) (now : String) (extracted : Json) :
    List (List MemoryRecord) × Except String HandlerResult :=
  match getFacts extracted with
  | .error e => ([], .error e)
  | .ok facts => storeFacts batchWrite sessionId now facts

/-- The handler pipeline from the downloaded payload onward, with the model
invocation and the batch write abstracted as function parameters and the
single `datetime.now` instant as `now`. -/
def handlerFromPayload (batchWrite : List MemoryRecord → Except String Unit)
    (model : String → Except String Json) (now : String)
    (payload : List (String × Json)) :
    List (List MemoryRecord) × Except String HandlerResult :=
  match build_transcript payload with
  | .error e => ([], .error e)
  | .ok transcript =>
    match model transcript with
    | .error e => ([], .error e)
    | .ok extracted =>
      handlerStoreStage batchWrite ((lookupField payload "sessionId").getD .null) now extracted

/-! ## Derived notions used to state the claims -/

/-- Split a character list at newline characters (the lines of a string,
`str.split("\n")` style: `n` newlines yield `n+1` pieces). -/
def splitOnNewline : List Char → List (List Char)
  | [] => [[]]
  | c :: rest =>
    if c = '\n' then [] :: splitOnNewline rest
    else
      match splitOnNewline rest with
      | [] => [[c]]
      | l :: ls => (c :: l) :: ls

/-- The non-empty lines of a string. -/
def nonEmptyLines (s : String) : List String :=
  ((splitOnNewline s.data).filter (fun l => !l.isEmpty)).map String.mk

/-- The transcript-inclusion test of `_build_transcript`:
`"role" in item and "content" in item`, when neither test raises. -/
def includedB (item : Json) : Bool :=
  match pyContains "role" item, pyContains "content" item with
  | .ok true, .ok true => true
  | _, _ => false

/-- How many items of a section pass the inclusion test. -/
def countIncluded (items : List Json) : Nat :=
  items.countP includedB

/-- The `text` field of a context item's content when the spec would call it
present: the content is a mapping whose `text` field holds a non-null
value. -/
def contentTextField : Json → Option Json
  | .obj cfs =>
    match lookupField cfs "text" with
    | some .null => none
    | some v => some v
    | none => none
  | _ => none

/-- Whether the content of a context item is absent-or-empty in the spec's
sense (the empty mapping, which is also what an absent content defaults
to). -/
def contentIsEmpty : Json → Bool
  | .obj cfs => cfs.isEmpty
  | _ => false

/-- Spec-side line format, written from the spec's words: a line
`"<role>: <text>"` where `<text>` is the item's `content.text` field if that
field is present, else the entire `content` structure serialized to a compact
textual form, else (when content is absent/empty) the whole item
serialized. -/
def extractTextSpecSide (item : Json) : String :=
  match item with
  | .obj fs =>
    let role := (lookupField fs "role").getD (.str "UNKNOWN")
    let content := (lookupField fs "content").getD (.obj [])
    let text : String :=
      match contentTextField content with
      | some v => pyStr v
      | none => if contentIsEmpty content then dumps item else dumps content
    pyStr role ++ ": " ++ text
  | _ => ""

/-! ## Helper lemmas -/

/-- A successfully mapped record carries the shared `now` timestamp. -/
theorem mapFact_timestamp (sid : Json) (now : String) (f : Json) (r : MemoryRecord)
    (h : mapFact sid now f = .ok r) : r.timestamp = now := by
  cases f with
  | obj fs =>
    simp only [mapFact] at h
    cases hk : lookupField fs "key" with
    | none => rw [hk] at h; exact absurd h (by simp)
    | some kv =>
      rw [hk] at h
      cases hv : lookupField fs "value" with
      | none => rw [hv] at h; exact absurd h (by simp)
      | some vv =>
        rw [hv] at h
        cases h
        rfl
  | null => exact absurd h (by simp [mapFact])
  | bool b => exact absurd h (by simp [mapFact])
  | num n => exact absurd h (by simp [mapFact])
  | str s => exact absurd h (by simp [mapFact])
  | arr xs => exact absurd h (by simp [mapFact])

/-- Every record of a successful `mapRecords` run carries the shared
timestamp. -/
theorem mapRecords_timestamp (sid : Json) (now : String) :
    ∀ (facts : List Json) (rs : List MemoryRecord),
      mapRecords sid now facts = .ok rs → ∀ r ∈ rs, r.timestamp = now := by
  intro facts
  induction facts with
  | nil =>
    intro rs h r hr
    cases h
    cases hr
  | cons f fs ih =>
    intro rs h r hr
    simp only [mapRecords] at h
    cases hf : mapFact sid now f with
    | error e => rw [hf] at h; exact absurd h (by simp)
    | ok r0 =>
      rw [hf] at h
      cases hrest : mapRecords sid now fs with
      | error e => rw [hrest] at h; exact absurd h (by simp)
      | ok rs0 =>
        rw [hrest] at h
        cases h
        cases hr with
        | head => exact mapFact_timestamp sid now f r hf
        | tail _ hr0 => exact ih rs0 hrest r hr0

/-- A fact whose mapping fails makes the whole `mapRecords` run fail. -/
theorem mapRecords_error_of_mem (sid : Json) (now : String) :
    ∀ (facts : List Json) (f : Json), f ∈ facts →
      (∃ e, mapFact sid now f = .error e) →
      ∃ e, mapRecords sid now facts = .error e := by
  intro facts
  induction facts with
  | nil => intro f hf; cases hf
  | cons g gs ih =>
    intro f hf hbad
    simp only [mapRecords]
    cases hg : mapFact sid now g with
    | error e => exact ⟨e, rfl⟩
    | ok r =>
      cases hf with
      | head =>
        obtain ⟨e, he⟩ := hbad
        rw [hg] at he
        exact absurd he (by simp)
      | tail _ hf0 =>
        obtain ⟨e, he⟩ := ih f hf0 hbad
        rw [he]
        exact ⟨e, rfl⟩

/-- Splitting a newline-free character list yields that one piece. -/
theorem splitOnNewline_no_newline (l : List Char) (h : '\n' ∉ l) :
    splitOnNewline l = [l] := by
  induction l with
  | nil => rfl
  | cons c rest ih =>
    have hc : ¬ c = '\n' := fun hcc => h (hcc ▸ List.mem_cons_self c rest)
    have hrest : '\n' ∉ rest := fun hm => h (List.mem_cons_of_mem c hm)
    simp only [splitOnNewline, if_neg hc, ih hrest]

/-- Splitting a join step: a newline-free piece, a newline, and a tail. -/
theorem splitOnNewline_append (p t : List Char) (h : '\n' ∉ p) :
    splitOnNewline (p ++ '\n' :: t) = p :: splitOnNewline t := by
  induction p with
  | nil => simp [splitOnNewline]
  | cons c ps ih =>
    have hc : ¬ c = '\n' := fun hcc => h (hcc ▸ List.mem_cons_self c ps)
    have hps : '\n' ∉ ps := fun hm => h (List.mem_cons_of_mem c hm)
    simp only [List.cons_append, splitOnNewline, if_neg hc, List.append_eq, ih hps]

/-- Non-empty, newline-free pieces are recovered exactly from their
newline-join. -/
theorem filter_splitOnNewline_join (parts : List (List Char))
    (h1 : ∀ p ∈ parts, '\n' ∉ p) (h2 : ∀ p ∈ parts, p ≠ []) :
    (splitOnNewline (joinWithNewline parts)).filter (fun l => !l.isEmpty) = parts := by
  induction parts with
  | nil => rfl
  | cons p ps ih =>
    cases ps with
    | nil =>
      have hp1 : '\n' ∉ p := h1 p (List.mem_cons_self p [])
      have hp2 : p ≠ [] := h2 p (List.mem_cons_self p [])
      simp only [joinWithNewline, splitOnNewline_no_newline p hp1, List.filter]
      cases p with
      | nil => exact absurd rfl hp2
      | cons c cs => rfl
    | cons q qs =>
      have hp1 : '\n' ∉ p := h1 p (List.mem_cons_self p _)
      have hp2 : p ≠ [] := h2 p (List.mem_cons_self p _)
      have ih2 := ih (fun r hr => h1 r (List.mem_cons_of_mem p hr))
        (fun r hr => h2 r (List.mem_cons_of_mem p hr))
      simp only [joinWithNewline, splitOnNewline_append p _ hp1, List.filter]
      cases p with
      | nil => exact absurd rfl hp2
      | cons c cs => simpa [List.filter] using ih2

/-- A line produced for an included item passed the role-and-content test and
came from `_extract_text_from_context_item`. -/
theorem processItem_some (i : Json) (l : String)
    (h : processItem i = .ok (some l)) :
    includedB i = true ∧ extract_text_from_context_item i = .ok l := by
  simp only [processItem] at h
  simp only [includedB]
  cases hr : pyContains "role" i with
  | error e => rw [hr] at h; exact absurd h (by simp)
  | ok br =>
    rw [hr] at h
    cases br with
    | false => exact absurd h (by simp)
    | true =>
      cases hc : pyContains "content" i with
      | error e => rw [hc] at h; exact absurd h (by simp)
      | ok bc =>
        rw [hc] at h
        cases bc with
        | false => exact absurd h (by simp)
        | true =>
          cases he : extract_text_from_context_item i with
          | error e => rw [he] at h; exact absurd h (by simp)
          | ok line =>
            rw [he] at h
            cases h
            exact ⟨rfl, rfl⟩

/-- A skipped item failed the role-and-content test. -/
theorem processItem_none (i : Json) (h : processItem i = .ok none) :
    includedB i = false := by
  simp only [processItem] at h
  simp only [includedB]
  cases hr : pyContains "role" i with
  | error e => rfl
  | ok br =>
    rw [hr] at h
    cases br with
    | false => rfl
    | true =>
      cases hc : pyContains "content" i with
      | error e => rfl
      | ok bc =>
        rw [hc] at h
        cases bc with
        | false => rfl
        | true =>
          cases he : extract_text_from_context_item i with
          | error e => rw [he] at h; exact absurd h (by simp)
          | ok line => rw [he] at h; exact absurd h (by simp)

/-- One line per included item: a section's collected lines count the items
that pass the role-and-content test. -/
theorem collectParts_length (items : List Json) :
    ∀ (ps : List String), collectParts items = .ok ps →
      ps.length = countIncluded items := by
  induction items with
  | nil =>
    intro ps h
    cases h
    rfl
  | cons i rest ih =>
    intro ps h
    simp only [collectParts] at h
    cases hp : processItem i with
    | error e => rw [hp] at h; exact absurd h (by simp)
    | ok r =>
      rw [hp] at h
      cases r with
      | none =>
        have hinc := processItem_none i hp
        have hrec := ih ps h
        simp only [countIncluded] at hrec ⊢
        rw [List.countP_cons_of_neg _ _ (by simp [hinc])]
        exact hrec
      | some l =>
        cases hrest : collectParts rest with
        | error e => rw [hrest] at h; exact absurd h (by simp)
        | ok ls =>
          rw [hrest] at h
          cases h
          have hinc := (processItem_some i l hp).1
          have hrec := ih ls hrest
          simp only [countIncluded] at hrec ⊢
          rw [List.length_cons, List.countP_cons_of_pos _ _ hinc, hrec]

/-- Every produced transcript line is non-empty (it contains `": "`). -/
theorem extract_ok_data_ne_nil (i : Json) (l : String)
    (h : extract_text_from_context_item i = .ok l) : l.data ≠ [] := by
  cases i with
  | null => exact absurd h (by simp [extract_text_from_context_item])
  | bool b => exact absurd h (by simp [extract_text_from_context_item])
  | num n => exact absurd h (by simp [extract_text_from_context_item])
  | str s => exact absurd h (by simp [extract_text_from_context_item])
  | arr xs => exact absurd h (by simp [extract_text_from_context_item])
  | obj fs =>
    simp only [extract_text_from_context_item] at h
    split at h
    case _ cfs heq =>
      cases h
      intro hnil
      rw [String.data_append, String.data_append, List.append_assoc] at hnil
      rcases List.append_eq_nil.mp hnil with ⟨-, h2⟩
      rcases List.append_eq_nil.mp h2 with ⟨h3, -⟩
      exact absurd h3 (by decide)
    case _ => exact absurd h (by simp)

/-- Collected lines are non-empty strings. -/
theorem collectParts_data_ne_nil (items : List Json) :
    ∀ (ps : List String), collectParts items = .ok ps →
      ∀ p ∈ ps, p.data ≠ [] := by
  induction items with
  | nil =>
    intro ps h
    cases h
    intro p hp
    cases hp
  | cons i rest ih =>
    intro ps h
    simp only [collectParts] at h
    cases hp : processItem i with
    | error e => rw [hp] at h; exact absurd h (by simp)
    | ok r =>
      rw [hp] at h
      cases r with
      | none => exact ih ps h
      | some l =>
        cases hrest : collectParts rest with
        | error e => rw [hrest] at h; exact absurd h (by simp)
        | ok ls =>
          rw [hrest] at h
          cases h
          intro p hmem
          cases hmem with
          | head => exact extract_ok_data_ne_nil i l (processItem_some i l hp).2
          | tail _ hmem2 => exact ih ls hrest p hmem2

/-- Finding the `://` right after a colon-free scheme. -/
theorem splitAtSchemeSep_append (sch t : List Char) (h : ':' ∉ sch) :
    splitAtSchemeSep (sch ++ ':' :: '/' :: '/' :: t) = some (sch, t) := by
  induction sch with
  | nil => simp [splitAtSchemeSep]
  | cons c cs ih =>
    have hc : ¬ c = ':' := fun hcc => h (hcc ▸ List.mem_cons_self c cs)
    simp only [List.cons_append, splitAtSchemeSep, List.append_eq]
    rw [if_neg (fun hand => hc hand.1), ih (fun hm => h (List.mem_cons_of_mem c hm))]

/-- Splitting a slash-free prefix at the first slash via `takeWhile`/`dropWhile`. -/
theorem whileUntilSlash (b t : List Char) (hb : '/' ∉ b) :
    (b ++ '/' :: t).takeWhile (fun c => c ≠ '/') = b ∧
      (b ++ '/' :: t).dropWhile (fun c => c ≠ '/') = '/' :: t := by
  induction b with
  | nil =>
    exact ⟨List.takeWhile_cons_of_neg (by decide),
      List.dropWhile_cons_of_neg (by decide)⟩
  | cons c cs ih =>
    have hc : ¬ c = '/' := fun hcc => hb (hcc ▸ List.mem_cons_self c cs)
    have hp : decide (c ≠ '/') = true := decide_eq_true hc
    have ihh := ih (fun hm => hb (List.mem_cons_of_mem c hm))
    constructor
    · rw [List.cons_append, List.takeWhile_cons, if_pos hp, ihh.1]
    · rw [List.cons_append, List.dropWhile_cons, if_pos hp, ihh.2]

/-- On a slash-free list, `takeWhile` keeps everything and `dropWhile` drops
everything. -/
theorem whileNoSlash (b : List Char) (hb : '/' ∉ b) :
    b.takeWhile (fun c => c ≠ '/') = b ∧
      b.dropWhile (fun c => c ≠ '/') = [] := by
  induction b with
  | nil => exact ⟨rfl, rfl⟩
  | cons c cs ih =>
    have hc : ¬ c = '/' := fun hcc => hb (hcc ▸ List.mem_cons_self c cs)
    have hp : decide (c ≠ '/') = true := decide_eq_true hc
    have ihh := ih (fun hm => hb (List.mem_cons_of_mem c hm))
    constructor
    · rw [List.takeWhile_cons, if_pos hp, ihh.1]
    · rw [List.dropWhile_cons, if_pos hp, ihh.2]

/-- Evaluation of `urlparseModel` on `scheme://bucket/rest`. -/
theorem urlparseModel_full (scheme bucket rest : String)
    (hs : ':' ∉ scheme.data) (hb : '/' ∉ bucket.data) :
    urlparseModel (scheme ++ "://" ++ bucket ++ "/" ++ rest) =
      { scheme := String.mk (scheme.data.map Char.toLower)
        netloc := bucket
        path := String.mk ('/' :: rest.data) } := by
  have h1 : ("://" : String).data = [':', '/', '/'] := rfl
  have h2 : ("/" : String).data = ['/'] := rfl
  have hdata : (scheme ++ "://" ++ bucket ++ "/" ++ rest).data
      = scheme.data ++ ':' :: '/' :: '/' :: (bucket.data ++ '/' :: rest.data) := by
    simp [String.data_append, h1, h2]
  unfold urlparseModel
  rw [hdata, splitAtSchemeSep_append _ _ hs]
  have hw := whileUntilSlash bucket.data rest.data hb
  simp only [hw.1, hw.2]

/-- Evaluation of `urlparseModel` on `scheme://bucket` (no path). -/
theorem urlparseModel_nopath (scheme bucket : String)
    (hs : ':' ∉ scheme.data) (hb : '/' ∉ bucket.data) :
    urlparseModel (scheme ++ "://" ++ bucket) =
      { scheme := String.mk (scheme.data.map Char.toLower)
        netloc := bucket
        path := "" } := by
  have h1 : ("://" : String).data = [':', '/', '/'] := rfl
  have hdata : (scheme ++ "://" ++ bucket).data
      = scheme.data ++ ':' :: '/' :: '/' :: bucket.data := by
    simp [String.data_append, h1]
  unfold urlparseModel
  rw [hdata, splitAtSchemeSep_append _ _ hs]
  have hw := whileNoSlash bucket.data hb
  simp only [hw.1, hw.2]

/-! ## Claims -/

/-- C4: for location strings of the form `scheme://bucket/key/more` (clean
components: no `:` or `/` in the scheme, no `/`, `?` or `#` in the bucket, no
`?`, `#` or `;` in the key part, which does not start with `/` — the domain
on which the urlparse model is exact), parsing returns `(bucket, "key/more")`
exactly when the scheme is `s3` (case-insensitively, as `urlparse`
lower-cases it) and the bucket is non-empty; it raises for any other scheme
or an empty bucket, and it raises when the path component is missing
altogether. -/
theorem claim_C4 (scheme bucket rest : String)
    (hs1 : ':' ∉ scheme.data) (hs2 : '/' ∉ scheme.data)
    (hb1 : '/' ∉ bucket.data) (hb2 : '?' ∉ bucket.data) (hb3 : '#' ∉ bucket.data)
    (hr1 : rest.data.head? ≠ some '/') (hr2 : '?' ∉ rest.data) (hr3 : '#' ∉ rest.data)
    (hr4 : ';' ∉ rest.data) :
    (scheme.data.map Char.toLower = "s3".data ∧ bucket ≠ "" →
        parse_s3_payload_location (scheme ++ "://" ++ bucket ++ "/" ++ rest) =
          .ok (bucket, rest))
    ∧ (scheme.data.map Char.toLower ≠ "s3".data ∨ bucket = "" →
        ∃ e, parse_s3_payload_location (scheme ++ "://" ++ bucket ++ "/" ++ rest) = .error e)
    ∧ (∃ e, parse_s3_payload_location (scheme ++ "://" ++ bucket) = .error e) := by
  have hu := urlparseModel_full scheme bucket rest hs1 hb1
  have hu2 := urlparseModel_nopath scheme bucket hs1 hb1
  refine ⟨?_, ?_, ?_⟩
  · rintro ⟨hlow, hbne⟩
    simp only [parse_s3_payload_location, hu]
    have hcond : ¬(String.mk (scheme.data.map Char.toLower) ≠ "s3" ∨ bucket = "" ∨
        String.mk ('/' :: rest.data) = "") := by
      push_neg
      refine ⟨?_, hbne, ?_⟩
      · rw [hlow]
      · intro hemp
        have := congrArg String.data hemp
        simp at this
    rw [if_neg hcond]
    have hd : ('/' :: rest.data).dropWhile (fun c => c = '/') = rest.data := by
      rw [List.dropWhile_cons, if_pos (by decide)]
      cases hcase : rest.data with
      | nil => rfl
      | cons r rs =>
        rw [hcase] at hr1
        have hrne : ¬ r = '/' := by simpa using hr1
        rw [List.dropWhile_cons, if_neg (by simpa using hrne)]
    rw [hd]
  · intro hor
    simp only [parse_s3_payload_location, hu]
    have hcond : String.mk (scheme.data.map Char.toLower) ≠ "s3" ∨ bucket = "" ∨
        String.mk ('/' :: rest.data) = "" := by
      rcases hor with h | h
      · left
        intro heq
        exact h (congrArg String.data heq)
      · right; left; exact h
    exact ⟨_, by rw [if_pos hcond]⟩
  · simp only [parse_s3_payload_location, hu2]
    exact ⟨_, by rw [if_pos (Or.inr (Or.inr trivial))]⟩

/-- Witness for C4: the spec's shape `s3://bucket/key/more`. -/
theorem claim_C4_witness :
    parse_s3_payload_location ("s3" ++ "://" ++ "bucket" ++ "/" ++ "key/more") =
      .ok ("bucket", "key/more") :=
  (claim_C4 "s3" "bucket" "key/more" (by decide) (by decide) (by decide) (by decide)
      (by decide) (by decide) (by decide) (by decide) (by decide)).1
    ⟨by decide, by decide⟩

/-- C1: for every extracted fact with both a key and a value, the mapped
record has `requestIdentifier = "<session>-<key>"`, `content.text =
"<key>: <value>"` and `namespaces = ["/"]`; and every record the mapping
produces has `namespaces = ["/"]`. -/
theorem claim_C1 (s k v now : String) (fs : List (String × Json))
    (hk : lookupField fs "key" = some (.str k))
    (hv : lookupField fs "value" = some (.str v)) :
    mapFact (.str s) now (.obj fs) =
      .ok { requestIdentifier := s ++ "-" ++ k, namespaces := ["/"],
            contentText := k ++ ": " ++ v, timestamp := now }
    ∧ ∀ (sid f : Json) (r : MemoryRecord),
        mapFact sid now f = .ok r → r.namespaces = ["/"] := by
  constructor
  · simp only [mapFact]
    rw [hk, hv]
    rfl
  · intro sid f r h
    cases f with
    | obj gs =>
      simp only [mapFact] at h
      cases hk2 : lookupField gs "key" with
      | none => rw [hk2] at h; exact absurd h (by simp)
      | some kv =>
        rw [hk2] at h
        cases hv2 : lookupField gs "value" with
        | none => rw [hv2] at h; exact absurd h (by simp)
        | some vv =>
          rw [hv2] at h
          cases h
          rfl
    | null => exact absurd h (by simp [mapFact])
    | bool b => exact absurd h (by simp [mapFact])
    | num n => exact absurd h (by simp [mapFact])
    | str s2 => exact absurd h (by simp [mapFact])
    | arr xs => exact absurd h (by simp [mapFact])

/-- Witness for C1: the spec's own example, fact `{"key":"name","value":"Ann"}`
under session `"S1"`. -/
theorem claim_C1_witness :
    mapFact (.str "S1") "T0" (.obj [("key", .str "name"), ("value", .str "Ann")]) =
      .ok { requestIdentifier := "S1" ++ "-" ++ "name", namespaces := ["/"],
            contentText := "name" ++ ": " ++ "Ann", timestamp := "T0" } :=
  (claim_C1 "S1" "name" "Ann" "T0"
    [("key", .str "name"), ("value", .str "Ann")] rfl rfl).1

/-- C2 evaluation: a fact carrying no key does not map to a
`"<session>-unknown"` record; the mapping raises `KeyError` from the direct
`f["key"]` indexing in `content.text` instead, so no record is produced. -/
theorem claim_C2_keyerror :
    mapFact (.str "S1") "T0" (.obj [("value", .str "Ann")]) = .error "KeyError: key" :=
  rfl

/-- C5: when the record batch is non-empty and the batch persistence call
fails, exactly one batch call is made carrying the whole record list, and the
failure is re-raised — the handler outcome is the error, never a success or a
partial count. -/
theorem claim_C5 (bw : List MemoryRecord → Except String Unit)
    (records : List MemoryRecord) (e : String)
    (hne : records ≠ []) (hf : bw records = .error e) :
    persistRecords bw records = ([records], .error e) := by
  unfold persistRecords
  rw [if_neg hne, hf]

/-- Witness for C5: a singleton batch against a failing store. -/
theorem claim_C5_witness :
    persistRecords (fun _ => .error "boom")
      [{ requestIdentifier := "S1-name", namespaces := ["/"],
         contentText := "name: Ann", timestamp := "T0" }] =
      ([[{ requestIdentifier := "S1-name", namespaces := ["/"],
           contentText := "name: Ann", timestamp := "T0" }]], .error "boom") :=
  claim_C5 _ _ _ (by simp) rfl

/-- C6: when the model output yields zero extracted facts, the handler makes
no persistence call and returns a success result with stored count 0. -/
theorem claim_C6 (bw : List MemoryRecord → Except String Unit)
    (model : String → Except String Json) (now : String)
    (payload : List (String × Json)) (t : String) (extracted : Json)
    (h1 : build_transcript payload = .ok t)
    (h2 : model t = .ok extracted)
    (h3 : getFacts extracted = .ok []) :
    handlerFromPayload bw model now payload = ([], .ok { ok := true, stored := 0 }) := by
  simp only [handlerFromPayload, h1, h2, handlerStoreStage, h3]
  rfl

/-- Witness for C6: empty payload, a model answering `{}` (no facts). -/
theorem claim_C6_witness :
    handlerFromPayload (fun _ => .ok ()) (fun _ => .ok (.obj [])) "T0" [] =
      ([], .ok { ok := true, stored := 0 }) :=
  claim_C6 _ _ _ _ "" (.obj []) rfl rfl rfl

/-- C7 counterexample: the item `{"role": "user"}` has a role field (so the
claim says it contributes a transcript line), yet `_build_transcript` skips
it — the guard requires both `role` and `content` — and the transcript has no
lines. -/
theorem claim_C7_counterexample :
    buildTranscriptParts [("historicalContext", .arr [.obj [("role", .str "user")]])] = .ok []
    ∧ hasKey [("role", Json.str "user")] "role" = true
    ∧ build_transcript [("historicalContext", .arr [.obj [("role", .str "user")]])] = .ok "" :=
  ⟨rfl, rfl, rfl⟩

/-- C7 (amended): when building the transcript, a context item is skipped
(contributes no line) if and only if it is missing the role field or the
content field; only items carrying both contribute a line. -/
theorem claim_C7_amended (fs : List (String × Json)) (r : Option String)
    (h : processItem (.obj fs) = .ok r) :
    r = none ↔ (hasKey fs "role" = false ∨ hasKey fs "content" = false) := by
  simp only [processItem, pyContains] at h
  cases hr : hasKey fs "role" with
  | false =>
    rw [hr] at h
    cases h
    simp
  | true =>
    rw [hr] at h
    cases hc : hasKey fs "content" with
    | false =>
      rw [hc] at h
      cases h
      simp
    | true =>
      rw [hc] at h
      cases he : extract_text_from_context_item (.obj fs) with
      | error e => rw [he] at h; exact absurd h (by simp)
      | ok line =>
        rw [he] at h
        cases h
        simp

/-- Witness for C7 (amended): the role-only item is skipped. -/
theorem claim_C7_witness :
    (none : Option String) = none ↔
      (hasKey [("role", Json.str "user")] "role" = false ∨
       hasKey [("role", Json.str "user")] "content" = false) :=
  claim_C7_amended [("role", Json.str "user")] none rfl

/-- C9: all records of one batch carry the single timestamp taken when the
batch is assembled; in particular any two records of the batch have equal
timestamp fields. -/
theorem claim_C9 (sid : Json) (now : String) (facts : List Json)
    (rs : List MemoryRecord) (h : mapRecords sid now facts = .ok rs) :
    (∀ r ∈ rs, r.timestamp = now) ∧
      ∀ r1 ∈ rs, ∀ r2 ∈ rs, r1.timestamp = r2.timestamp := by
  have hts := mapRecords_timestamp sid now facts rs h
  exact ⟨hts, fun r1 h1 r2 h2 => (hts r1 h1).trans (hts r2 h2).symm⟩

/-- Witness for C9: a two-fact batch. -/
theorem claim_C9_witness :
    (∀ r ∈ ([{ requestIdentifier := "S1-name", namespaces := ["/"],
               contentText := "name: Ann", timestamp := "T0" },
             { requestIdentifier := "S1-email", namespaces := ["/"],
               contentText := "email: a@b.c", timestamp := "T0" }] : List MemoryRecord),
        r.timestamp = "T0") ∧
      ∀ r1 ∈ ([{ requestIdentifier := "S1-name", namespaces := ["/"],
                 contentText := "name: Ann", timestamp := "T0" },
               { requestIdentifier := "S1-email", namespaces := ["/"],
                 contentText := "email: a@b.c", timestamp := "T0" }] : List MemoryRecord),
        ∀ r2 ∈ ([{ requestIdentifier := "S1-name", namespaces := ["/"],
                   contentText := "name: Ann", timestamp := "T0" },
                 { requestIdentifier := "S1-email", namespaces := ["/"],
                   contentText := "email: a@b.c", timestamp := "T0" }] : List MemoryRecord),
          r1.timestamp = r2.timestamp :=
  claim_C9 (.str "S1") "T0"
    [.obj [("key", .str "name"), ("value", .str "Ann")],
     .obj [("key", .str "email"), ("value", .str "a@b.c")]] _ rfl

/-- C10: a fact lacking a `value` field makes the record mapping raise (the
direct `f["value"]` / `f["key"]` indexing), and with such a fact in the batch
no records are ever submitted to the store and the handler fails. -/
theorem claim_C10 (sid : Json) (now : String) (fs : List (String × Json))
    (hv : lookupField fs "value" = none) :
    (∃ e, mapFact sid now (.obj fs) = .error e) ∧
      ∀ (bw : List MemoryRecord → Except String Unit) (facts : List Json),
        Json.obj fs ∈ facts →
          (storeFacts bw sid now facts).1 = [] ∧
            ∃ e, (storeFacts bw sid now facts).2 = .error e := by
  have hbad : ∃ e, mapFact sid now (.obj fs) = .error e := by
    simp only [mapFact]
    cases hk : lookupField fs "key" with
    | none => exact ⟨_, rfl⟩
    | some kv =>
      rw [hv]
      exact ⟨_, rfl⟩
  refine ⟨hbad, fun bw facts hmem => ?_⟩
  obtain ⟨e, he⟩ := mapRecords_error_of_mem sid now facts (.obj fs) hmem hbad
  simp only [storeFacts]
  rw [he]
  exact ⟨rfl, e, rfl⟩

/-- Witness for C10: a fact with a key but no value. -/
theorem claim_C10_witness :
    (∃ e, mapFact (.str "S1") "T0" (.obj [("key", .str "name")]) = .error e) ∧
      (storeFacts (fun _ => .ok ()) (.str "S1") "T0" [.obj [("key", .str "name")]]).1 = [] := by
  have h := claim_C10 (.str "S1") "T0" [("key", .str "name")] rfl
  exact ⟨h.1, (h.2 (fun _ => .ok ()) [.obj [("key", .str "name")]] (by simp)).1⟩

/-- C8: every transcript line that `_extract_text_from_context_item` builds
matches the spec's format `"<role>: <text>"`, with `<text>` the content's
`text` field if present (non-null), else the serialized content, else the
serialized item. -/
theorem claim_C8 (item : Json) (line : String)
    (h : extract_text_from_context_item item = .ok line) :
    line = extractTextSpecSide item := by
  cases item with
  | null => exact absurd h (by simp [extract_text_from_context_item])
  | bool b => exact absurd h (by simp [extract_text_from_context_item])
  | num n => exact absurd h (by simp [extract_text_from_context_item])
  | str s => exact absurd h (by simp [extract_text_from_context_item])
  | arr xs => exact absurd h (by simp [extract_text_from_context_item])
  | obj fs =>
    simp only [extract_text_from_context_item] at h
    simp only [extractTextSpecSide]
    split at h
    case _ cfs heq =>
      rw [heq]
      simp only [contentTextField, contentIsEmpty]
      cases ht : lookupField cfs "text" with
      | none =>
        rw [ht] at h
        cases h
        rfl
      | some v =>
        rw [ht] at h
        cases v with
        | null => cases h; rfl
        | bool b => cases h; rfl
        | num n => cases h; rfl
        | str s => cases h; rfl
        | arr xs => cases h; rfl
        | obj gs => cases h; rfl
    case _ => exact absurd h (by simp)

/-- C3 counterexample: one current item with both role and content (so K = 1)
whose text embeds a newline.  The built transcript then has two non-empty
lines, not K. -/
theorem claim_C3_counterexample :
    build_transcript
        [("currentContext",
          .arr [.obj [("role", .str "user"), ("content", .obj [("text", .str "a\nb")])]])] =
      .ok "user: a\nb"
    ∧ countIncluded
        [.obj [("role", Json.str "user"), ("content", .obj [("text", Json.str "a\nb")])]] = 1
    ∧ (nonEmptyLines "user: a\nb").length = 2 :=
  ⟨rfl, rfl, rfl⟩

/-- C3 (amended): provided no contributed line itself embeds a newline
character, the built transcript has exactly K non-empty lines where K is the
number of items passing the role-and-content test, all historical lines
precede all current lines, and within each section lines keep item order
(the line list is `hp ++ cp`, the in-order lines of the two sections). -/
theorem claim_C3_amended (payload : List (String × Json)) (hist curr : List Json)
    (hp cp : List String)
    (h1 : getSection payload "historicalContext" = .ok hist)
    (h2 : getSection payload "currentContext" = .ok curr)
    (h3 : collectParts hist = .ok hp)
    (h4 : collectParts curr = .ok cp)
    (h5 : ∀ p ∈ hp ++ cp, '\n' ∉ p.data) :
    build_transcript payload = .ok (joinLines (hp ++ cp)) ∧
      nonEmptyLines (joinLines (hp ++ cp)) = hp ++ cp ∧
      (hp ++ cp).length = countIncluded hist + countIncluded curr := by
  refine ⟨?_, ?_, ?_⟩
  · simp only [build_transcript, buildTranscriptParts, h1, h2, h3, h4]
  · have hne : ∀ p ∈ hp ++ cp, p.data ≠ [] := by
      intro p hmem
      rcases List.mem_append.mp hmem with hm | hm
      · exact collectParts_data_ne_nil hist hp h3 p hm
      · exact collectParts_data_ne_nil curr cp h4 p hm
    have key := filter_splitOnNewline_join ((hp ++ cp).map String.data)
      (by
        intro q hq
        rcases List.mem_map.mp hq with ⟨s, hs, rfl⟩
        exact h5 s hs)
      (by
        intro q hq
        rcases List.mem_map.mp hq with ⟨s, hs, rfl⟩
        exact hne s hs)
    have hmkdata : String.mk ∘ String.data = (id : String → String) :=
      funext fun s => rfl
    calc nonEmptyLines (joinLines (hp ++ cp))
        = ((splitOnNewline (joinWithNewline ((hp ++ cp).map String.data))).filter
            (fun l => !l.isEmpty)).map String.mk := rfl
      _ = ((hp ++ cp).map String.data).map String.mk := by rw [key]
      _ = hp ++ cp := by rw [List.map_map, hmkdata, List.map_id]
  · rw [List.length_append, collectParts_length hist hp h3,
      collectParts_length curr cp h4]

/-- Witness for C3 (amended): a one-item historical section and a one-item
current section. -/
theorem claim_C3_witness :
    build_transcript
        [("historicalContext",
          .arr [.obj [("role", .str "user"), ("content", .obj [("text", .str "hello")])]]),
         ("currentContext",
          .arr [.obj [("role", .str "assistant"), ("content", .obj [("text", .str "hi")])]])] =
      .ok (joinLines (["user: hello"] ++ ["assistant: hi"])) ∧
      nonEmptyLines (joinLines (["user: hello"] ++ ["assistant: hi"])) =
        ["user: hello"] ++ ["assistant: hi"] ∧
      (["user: hello"] ++ ["assistant: hi"]).length =
        countIncluded [.obj [("role", Json.str "user"), ("content", .obj [("text", Json.str "hello")])]] +
          countIncluded [.obj [("role", Json.str "assistant"), ("content", .obj [("text", Json.str "hi")])]] :=
  claim_C3_amended _ _ _ _ _ rfl rfl rfl rfl (by decide)

/-- Witness for C8: the end-to-end example item. -/
theorem claim_C8_witness :
    "user: My name is Ann" =
      extractTextSpecSide
        (.obj [("role", .str "user"), ("content", .obj [("text", .str "My name is Ann")])]) :=
  claim_C8 (.obj [("role", .str "user"), ("content", .obj [("text", .str "My name is Ann")])])
    "user: My name is Ann" rfl

end MemoryProcessor
